import Mathlib

/-!
Verification of the markov_bot task engine (src/markov_bot): a shallow
embedding of domain.py, services.py, storage.py and bot.py, followed by
theorems about the deterministic daily picker, the summarizers, the policy
engine and the storage state machine.

Modelling conventions:
* Python machine integers are `Int`/`Nat`; 32-bit overflow in SHA-256 is
  explicit `% 2^32`.
* Python floats are modelled by exact rationals; `round(x, 4)` is modelled
  by ties-to-even rounding of the exact rational, matching Python's
  documented banker's rounding.
* The sqlite3 store is modelled as an explicit state (`MBState`) with the
  operations of storage.py; a constraint violation (duplicate primary key)
  rolls the transaction back, so a failing operation returns `.error` and
  leaves the state unchanged.  sqlite3 foreign keys are NOT enforced (the
  code never issues `PRAGMA foreign_keys`), so `record_event` succeeds even
  for an unknown assignment id.
* Ambient effects are explicit inputs: `date.today()` becomes a `today`
  parameter, `uuid.uuid4()`/`datetime.utcnow()` become `eventId`/`now`
  parameters.
-/

/-- Truncate to a 32-bit word, as the Python code's SHA-256 arithmetic does
implicitly inside hashlib. -/
def w32 (x : Nat) : Nat := x % 4294967296

/-- Right rotation of a 32-bit word. -/
def rotr32 (x n : Nat) : Nat := w32 ((x >>> n) ||| (x <<< (32 - n)))

/-- Bitwise complement of a 32-bit word. -/
def not32 (x : Nat) : Nat := 4294967295 - x

/-- The SHA-256 round constants. -/
def shaK : List Nat :=
  [1116352408, 1899447441, 3049323471, 3921009573, 961987163, 1508970993,
   2453635748, 2870763221, 3624381080, 310598401, 607225278, 1426881987,
   1925078388, 2162078206, 2614888103, 3248222580, 3835390401, 4022224774,
   264347078, 604807628, 770255983, 1249150122, 1555081692, 1996064986,
   2554220882, 2821834349, 2952996808, 3210313671, 3336571891, 3584528711,
   113926993, 338241895, 666307205, 773529912, 1294757372, 1396182291,
   1695183700, 1986661051, 2177026350, 2456956037, 2730485921, 2820302411,
   3259730800, 3345764771, 3516065817, 3600352804, 4094571909, 275423344,
   430227734, 506948616, 659060556, 883997877, 958139571, 1322822218,
   1537002063, 1747873779, 1955562222, 2024104815, 2227730452, 2361852424,
   2428436474, 2756734187, 3204031479, 3329325298]

/-- The working state of SHA-256: eight 32-bit words. -/
abbrev ShaState := Nat × Nat × Nat × Nat × Nat × Nat × Nat × Nat

/-- The SHA-256 initial hash state. -/
def shaH0 : ShaState :=
  (1779033703, 3144134277, 1013904242, 2773480762,
   1359893119, 2600822924, 528734635, 1541459225)

/-- Big-endian byte encoding of `x` into `k` bytes. -/
def bytesBE : Nat → Nat → List Nat
  | 0, _ => []
  | k + 1, x => bytesBE k (x / 256) ++ [x % 256]

/-- Group bytes into big-endian 32-bit words. -/
def wordsOfBytes : List Nat → List Nat
  | b0 :: b1 :: b2 :: b3 :: rest =>
      (((b0 * 256 + b1) * 256 + b2) * 256 + b3) :: wordsOfBytes rest
  | _ => []

/-- Extend a 16-word block to the 64-word SHA-256 message schedule. -/
def shaSchedule (block : List Nat) : List Nat :=
  (List.range 48).foldl
    (fun ws _ =>
      let i := ws.length
      let x15 := ws.getD (i - 15) 0
      let x2 := ws.getD (i - 2) 0
      let s0 := (rotr32 x15 7) ^^^ (rotr32 x15 18) ^^^ (x15 >>> 3)
      let s1 := (rotr32 x2 17) ^^^ (rotr32 x2 19) ^^^ (x2 >>> 10)
      ws ++ [w32 (ws.getD (i - 16) 0 + s0 + ws.getD (i - 7) 0 + s1)])
    block

/-- One SHA-256 round. -/
def shaRound (ws : List Nat) (st : ShaState) (i : Nat) : ShaState :=
  match st with
  | (a, b, c, d, e, f, g, hh) =>
    let s1 := (rotr32 e 6) ^^^ (rotr32 e 11) ^^^ (rotr32 e 25)
    let ch := (e &&& f) ^^^ ((not32 e) &&& g)
    let t1 := w32 (hh + s1 + ch + shaK.getD i 0 + ws.getD i 0)
    let s0 := (rotr32 a 2) ^^^ (rotr32 a 13) ^^^ (rotr32 a 22)
    let mj := (a &&& b) ^^^ (a &&& c) ^^^ (b &&& c)
    let t2 := w32 (s0 + mj)
    (w32 (t1 + t2), a, b, c, w32 (d + t1), e, f, g)

/-- One SHA-256 compression of a 16-word block into the running state. -/
def shaCompress (h : ShaState) (block : List Nat) : ShaState :=
  let ws := shaSchedule block
  let fin := (List.range 64).foldl (shaRound ws) h
  match h, fin with
  | (a0, b0, c0, d0, e0, f0, g0, h0), (a, b, c, d, e, f, g, hh) =>
    (w32 (a0 + a), w32 (b0 + b), w32 (c0 + c), w32 (d0 + d),
     w32 (e0 + e), w32 (f0 + f), w32 (g0 + g), w32 (h0 + hh))

/-- SHA-256 padding: append 0x80, zeros, and the 64-bit big-endian bit length. -/
def shaPad (msg : List Nat) : List Nat :=
  let len := msg.length
  let padZeros := (64 - ((len + 9) % 64)) % 64
  msg ++ [0x80] ++ List.replicate padZeros 0 ++ bytesBE 8 (8 * len)

/-- Fold the compression function over 64-byte blocks; the fuel argument is
structural so that the definition reduces in the kernel. -/
def shaFoldAux : Nat → ShaState → List Nat → ShaState
  | 0, h, _ => h
  | fuel + 1, h, bytes =>
    if bytes.isEmpty then h
    else shaFoldAux fuel (shaCompress h (wordsOfBytes (bytes.take 64))) (bytes.drop 64)

/-- Fold the compression function over the 64-byte blocks of a padded message. -/
def shaFold (h : ShaState) (bytes : List Nat) : ShaState :=
  shaFoldAux bytes.length h bytes

/-- SHA-256 digest of a byte list, as 32 bytes. -/
def sha256Bytes (msg : List Nat) : List Nat :=
  match shaFold shaH0 (shaPad msg) with
  | (a, b, c, d, e, f, g, h) =>
    bytesBE 4 a ++ bytesBE 4 b ++ bytesBE 4 c ++ bytesBE 4 d ++
    bytesBE 4 e ++ bytesBE 4 f ++ bytesBE 4 g ++ bytesBE 4 h

/-- Lowercase hexadecimal digit for a value below 16. -/
def hexChar (n : Nat) : Char :=
  if n < 10 then Char.ofNat (48 + n) else Char.ofNat (87 + n)

/-- Two lowercase hex digits of one byte. -/
def byteHex (b : Nat) : List Char := [hexChar (b / 16), hexChar (b % 16)]

/-- Characters of the lowercase hex digest. -/
def sha256HexChars (msg : List Nat) : List Char :=
  (sha256Bytes msg).foldr (fun b acc => byteHex b ++ acc) []

/-- Lowercase hex digest of a byte list (Python's `hashlib.sha256(x).hexdigest()`). -/
def sha256Hex (msg : List Nat) : String :=
  String.mk (sha256HexChars msg)

/-- Big-endian interpretation of bytes as a natural number; applied to the
digest bytes it equals Python's `int(hexdigest, 16)`. -/
def natOfBytesBE (bs : List Nat) : Nat := bs.foldl (fun a b => a * 256 + b) 0

/-- UTF-8 encoding of one character. -/
def utf8EncodeCharM (c : Char) : List Nat :=
  let n := c.toNat
  if n < 0x80 then [n]
  else if n < 0x800 then [0xC0 + n / 64, 0x80 + n % 64]
  else if n < 0x10000 then
    [0xE0 + n / 4096, 0x80 + (n / 64) % 64, 0x80 + n % 64]
  else
    [0xF0 + n / 262144, 0x80 + (n / 4096) % 64, 0x80 + (n / 64) % 64,
     0x80 + n % 64]

/-- UTF-8 bytes of a string (Python's `str.encode("utf-8")`). -/
def strBytes (s : String) : List Nat :=
  s.data.foldr (fun c acc => utf8EncodeCharM c ++ acc) []

/-! ## Calendar dates

Embedding of Python's `datetime.date`: a proleptic-Gregorian calendar date
with `toordinal`/`fromordinal` arithmetic (day 1 is 0001-01-01) and zero
padded ISO rendering.  `date + timedelta(days=k)` becomes `addDays`.  sqlite
compares the stored `date_assigned` column as TEXT in its ISO form; for
valid dates this lexicographic order coincides with ordinal order, which is
how the store model compares dates. -/

structure PyDate where
  year : Nat
  month : Nat
  day : Nat
deriving DecidableEq, Repr

/-- Gregorian leap-year test, as in `datetime`. -/
def isLeapYear (y : Nat) : Bool := y % 4 == 0 && (y % 100 != 0 || y % 400 == 0)

/-- Month lengths for a (non-)leap year. -/
def daysInMonthList (leap : Bool) : List Nat :=
  [31, if leap then 29 else 28, 31, 30, 31, 30, 31, 31, 30, 31, 30, 31]

/-- Number of days before January 1 of year `y` in the proleptic Gregorian
calendar. -/
def daysBeforeYear (y : Nat) : Nat :=
  let p := y - 1
  365 * p + p / 4 - p / 100 + p / 400

/-- Number of days in year `y` strictly before month `m`. -/
def daysBeforeMonth (y m : Nat) : Nat :=
  ((daysInMonthList (isLeapYear y)).take (m - 1)).foldl (· + ·) 0

/-- Python's `date.toordinal`. -/
def PyDate.toOrdinal (d : PyDate) : Nat :=
  daysBeforeYear d.year + daysBeforeMonth d.year d.month + d.day

/-- Walk the month-length table to convert a 0-based day of year into a
(month, day) pair. -/
def monthFromYearDay : List Nat → Nat → Nat × Nat
  | [], n => (1, n + 1)
  | len :: rest, n =>
    if n < len then (1, n + 1)
    else
      let p := monthFromYearDay rest (n - len)
      (p.1 + 1, p.2)

/-- Python's `date.fromordinal` (the `_ord2ymd` algorithm over the 400-year
cycle). -/
def PyDate.fromOrdinal (n : Nat) : PyDate :=
  let n0 := n - 1
  let n400 := n0 / 146097
  let r400 := n0 % 146097
  let n100 := r400 / 36524
  let r100 := r400 % 36524
  let n4 := r100 / 1461
  let r4 := r100 % 1461
  let n1 := r4 / 365
  let r1 := r4 % 365
  let year := 400 * n400 + 100 * n100 + 4 * n4 + n1 + 1
  if n1 == 4 || n100 == 4 then ⟨year - 1, 12, 31⟩
  else
    let p := monthFromYearDay (daysInMonthList (isLeapYear year)) r1
    ⟨year, p.1, p.2⟩

/-- Python's `d + timedelta(days=k)` for nonnegative `k`. -/
def PyDate.addDays (d : PyDate) (k : Nat) : PyDate :=
  PyDate.fromOrdinal (d.toOrdinal + k)

/-- Zero-pad a decimal rendering to `width` digits. -/
def padNum (width n : Nat) : String :=
  let s := toString n
  String.mk (List.replicate (width - s.length) '0') ++ s

/-- Python's `date.isoformat()`: `YYYY-MM-DD`. -/
def PyDate.toIso (d : PyDate) : String :=
  padNum 4 d.year ++ "-" ++ padNum 2 d.month ++ "-" ++ padNum 2 d.day

/-- Date comparison as the sqlite TEXT `BETWEEN` over ISO strings performs
it: chronological (ordinal) order. -/
def PyDate.le (a b : PyDate) : Bool := a.toOrdinal ≤ b.toOrdinal

/-! ## Domain model (domain.py) -/

inductive Skill
  | body
  | capital
  | productivity
  | game_thinking
  | psyche
  | language
deriving DecidableEq, Repr

inductive TaskStatus
  | assigned
  | done
  | failed
deriving DecidableEq, Repr

structure TaskTemplate where
  template_id : String
  skill : Skill
  title : String
  min_minutes : Nat
  max_minutes : Nat
deriving DecidableEq, Repr

structure TaskAssignment where
  assignment_id : String
  user_id : Int
  template_id : String
  title : String
  skill : Skill
  date_assigned : PyDate
  status : TaskStatus
deriving DecidableEq, Repr

/-- Task event; `created_at` (the `datetime.utcnow()` wall-clock value) is an
abstract timestamp supplied explicitly. -/
structure TaskEvent where
  event_id : String
  assignment_id : String
  user_id : Int
  status : TaskStatus
  created_at : Nat
  note : Option String
deriving DecidableEq, Repr

structure DaySummary where
  date_value : PyDate
  assigned : Nat
  done : Nat
  failed : Nat
deriving DecidableEq, Repr

structure WeekSummary where
  week_start : PyDate
  week_end : PyDate
  completion_rate : ℚ
  overload_flag : Bool
  stagnation_flag : Bool
  critical_failures : Nat
deriving DecidableEq, Repr

structure MonthSummary where
  month_start : PyDate
  month_end : PyDate
  completion_rate : ℚ
  closed_weeks : Nat
  critical_failures : Nat
  level_change : String
deriving DecidableEq, Repr

structure WeeklyAdjustment where
  week_start : PyDate
  adjustment_note : String
deriving DecidableEq, Repr

structure LevelRules where
  level : Int
  active_skills : List Skill
  max_daily_tasks : Nat
  min_daily_tasks : Nat
deriving DecidableEq, Repr

/-- Ties-to-even rounding of a rational to an integer; this is Python's
`round` (banker's rounding) on the exact value. -/
def roundHalfEven (q : ℚ) : ℤ :=
  let f := ⌊q⌋
  let r := q - f
  if r < 1 / 2 then f
  else if 1 / 2 < r then f + 1
  else if f % 2 = 0 then f else f + 1

/-- Embedding of `domain.completion_rate`: `0.0` when `total == 0`, else
`round(done / total, 4)`; floats are modelled by exact rationals. -/
def completion_rate (done total : Nat) : ℚ :=
  if total = 0 then 0
  else (roundHalfEven ((done : ℚ) / (total : ℚ) * 10000) : ℚ) / 10000

/-- Embedding of `domain.summarize_day`.  The ambient `date.today()` used on
an empty day is the explicit `today` parameter. -/
def summarize_day (today : PyDate) (assignments : List TaskAssignment) : DaySummary :=
  let assigned := assignments.length
  let done := (assignments.filter (fun a => a.status == TaskStatus.done)).length
  let failed := (assignments.filter (fun a => a.status == TaskStatus.failed)).length
  let date_value :=
    match assignments with
    | [] => today
    | a :: _ => a.date_assigned
  ⟨date_value, assigned, done, failed⟩

/-! ## The seeded pseudo-random generator

Modelled from the spec: the code builds `random.Random(seed)` — an external
library generator whose algorithm the spec deliberately does not pin down
(§9: only internal reproducibility per implementation is guaranteed, not a
specific PRNG).  We model it as an explicit deterministic generator keyed by
the seed, honouring the documented contract the code relies on:
`randint(a, b)` returns a value in `[a, b]` (for `a ≤ b`) and advances the
state, and `sample(xs, k)` (for `k ≤ |xs|`) returns `k` elements drawn
without replacement, i.e. from distinct positions of `xs`. -/

structure PyRandom where
  state : Nat
deriving DecidableEq, Repr

/-- Model of `random.Random(seed)`: a fresh generator instance holding the
seed, sharing no ambient state. -/
def mkRandom (seed : Nat) : PyRandom := ⟨seed⟩

/-- Draw one pseudo-random word and the successor state (a 64-bit linear
congruential step standing in for the library generator). -/
def PyRandom.next32 (r : PyRandom) : Nat × PyRandom :=
  let s := (6364136223846793005 * r.state + 1442695040888963407) % 18446744073709551616
  (s >>> 32, ⟨s⟩)

/-- Model of `Random.randint(a, b)`: both bounds inclusive.  Python raises
`ValueError` when `a > b`; the code only calls it with `a ≤ b`. -/
def PyRandom.randint (r : PyRandom) (a b : Nat) : Nat × PyRandom :=
  (a + r.next32.1 % (b + 1 - a), r.next32.2)

/-- Sampling without replacement: repeatedly draw an index into the remaining
population and remove the drawn element.  Structural recursion on the count
so that it reduces in the kernel. -/
def sampleAux {α : Type} : Nat → PyRandom → List α → List α × PyRandom
  | 0, r, _ => ([], r)
  | _ + 1, r, [] => ([], r)
  | k + 1, r, x :: xs =>
    let i := r.next32.1 % (x :: xs).length
    let q := sampleAux k r.next32.2 ((x :: xs).eraseIdx i)
    ((x :: xs).getD i x :: q.1, q.2)

/-- Model of `Random.sample(xs, k)` for `k ≤ |xs|` (the only way the code
calls it). -/
def PyRandom.sample {α : Type} (r : PyRandom) (xs : List α) (k : Nat) :
    List α × PyRandom :=
  sampleAux k r xs

/-! ## Storage model (storage.py)

The sqlite database becomes an explicit state.  Each operation of
`Storage` runs in one transaction: on a constraint violation the transaction
is rolled back (the connection is closed without commit), so a failing
operation returns `.error` and the caller's state is unchanged.  The code
never enables `PRAGMA foreign_keys`, so sqlite does NOT enforce the foreign
keys declared in the schema — in particular `record_event` accepts an event
whose `assignment_id` matches no stored assignment. -/

inductive DBError
  | integrityError
deriving DecidableEq, Repr

structure MBState where
  templates : List TaskTemplate
  assignments : List TaskAssignment
  events : List TaskEvent
deriving DecidableEq, Repr

/-- The empty database created by `_init_db`. -/
def initState : MBState := ⟨[], [], []⟩

/-- Embedding of `Storage.upsert_template` (`INSERT ... ON CONFLICT DO
UPDATE`). -/
def upsert_template (st : MBState) (t : TaskTemplate) : MBState :=
  if st.templates.any (fun u => u.template_id == t.template_id) then
    { st with templates :=
        st.templates.map (fun u => if u.template_id == t.template_id then t else u) }
  else { st with templates := st.templates ++ [t] }

/-- Embedding of `Storage.list_templates` (`SELECT *` in row order). -/
def list_templates (st : MBState) : List TaskTemplate := st.templates

/-- Sequential insertion of a batch of assignment rows; a primary-key
conflict on `assignment_id` aborts the whole `executemany`. -/
def insertAssignments :
    List TaskAssignment → List TaskAssignment → Except DBError (List TaskAssignment)
  | acc, [] => .ok acc
  | acc, a :: rest =>
    if acc.any (fun b => b.assignment_id == a.assignment_id) then .error .integrityError
    else insertAssignments (acc ++ [a]) rest

/-- Embedding of `Storage.create_assignments`: a plain `INSERT` (no
`ON CONFLICT` clause), all-or-nothing per transaction. -/
def create_assignments (st : MBState) (batch : List TaskAssignment) :
    Except DBError MBState :=
  (insertAssignments st.assignments batch).map
    (fun rows => { st with assignments := rows })

/-- Embedding of `Storage.record_event`: insert the event (primary key
`event_id`), then update the status of every assignment row matching
`assignment_id` — zero rows when the id is unknown, since foreign keys are
not enforced. -/
def record_event (st : MBState) (e : TaskEvent) : Except DBError MBState :=
  if st.events.any (fun f => f.event_id == e.event_id) then .error .integrityError
  else
    .ok { st with
      events := st.events ++ [e]
      assignments := st.assignments.map
        (fun a => if a.assignment_id == e.assignment_id then { a with status := e.status } else a) }

/-- Embedding of `Storage.fetch_assignment` (`fetchone` on the primary
key). -/
def fetch_assignment (st : MBState) (aid : String) : Option TaskAssignment :=
  st.assignments.find? (fun a => a.assignment_id == aid)

/-- Lexicographic order on character lists by codepoint. -/
def charListLe : List Char → List Char → Bool
  | [], _ => true
  | _ :: _, [] => false
  | c1 :: r1, c2 :: r2 =>
    if c1.toNat < c2.toNat then true
    else if c2.toNat < c1.toNat then false
    else charListLe r1 r2

/-- String order as sqlite's default BINARY collation sees the stored TEXT:
lexicographic on the UTF-8 bytes, which for UTF-8 equals lexicographic
codepoint order. -/
def strLe (a b : String) : Bool := charListLe a.data b.data

/-- Insertion into a list sorted by a boolean comparison. -/
def insertBy {α : Type} (le : α → α → Bool) (a : α) : List α → List α
  | [] => [a]
  | b :: rest => if le a b then a :: b :: rest else b :: insertBy le a rest

/-- Insertion sort by a boolean comparison (models sqlite `ORDER BY`). -/
def sortBy {α : Type} (le : α → α → Bool) : List α → List α
  | [] => []
  | a :: rest => insertBy le a (sortBy le rest)

/-- Embedding of `Storage.list_assignments_for_date`: the user's rows with
`date_assigned` equal to the given date, ordered by `assignment_id`. -/
def list_assignments_for_date (st : MBState) (user_id : Int) (d : PyDate) :
    List TaskAssignment :=
  sortBy (fun a b => strLe a.assignment_id b.assignment_id)
    (st.assignments.filter (fun a => a.user_id == user_id && a.date_assigned == d))

/-- Embedding of `Storage.list_assignments_between`: the user's rows with
`date_assigned BETWEEN start AND end` (inclusive, TEXT order on ISO dates =
chronological order), ordered by `(date_assigned, assignment_id)`. -/
def list_assignments_between (st : MBState) (user_id : Int) (start_date end_date : PyDate) :
    List TaskAssignment :=
  sortBy
    (fun a b =>
      a.date_assigned.toOrdinal < b.date_assigned.toOrdinal ||
        (a.date_assigned.toOrdinal == b.date_assigned.toOrdinal &&
          strLe a.assignment_id b.assignment_id))
    (st.assignments.filter
      (fun a =>
        a.user_id == user_id && start_date.le a.date_assigned && a.date_assigned.le end_date))

/-! ## Service layer (services.py) -/

/-- The default template catalog `DEFAULT_TEMPLATES`. -/
def DEFAULT_TEMPLATES : List TaskTemplate :=
  [⟨"body-01", Skill.body, "Физическая активность", 15, 30⟩,
   ⟨"capital-01", Skill.capital, "Учёт расходов", 10, 20⟩,
   ⟨"productivity-01", Skill.productivity, "План дня", 10, 20⟩,
   ⟨"game-01", Skill.game_thinking, "Анализ решения", 10, 15⟩,
   ⟨"psyche-01", Skill.psyche, "Фиксация состояния", 5, 10⟩,
   ⟨"language-01", Skill.language, "Практика языка", 15, 25⟩]

/-- The default `LevelRules`. -/
def DEFAULT_RULES : LevelRules :=
  ⟨1,
   [Skill.body, Skill.capital, Skill.productivity, Skill.game_thinking,
    Skill.psyche, Skill.language],
   3, 2⟩

structure DailyPlan where
  date_value : PyDate
  assignments : List TaskAssignment
deriving DecidableEq, Repr

/-- Embedding of `TaskService._assignment_id`: the first 16 characters of
the lowercase hex SHA-256 digest of `"{user_id}:{date.isoformat()}:{template_id}"`. -/
def assignment_id_of (user_id : Int) (d : PyDate) (template_id : String) : String :=
  String.mk
    ((sha256HexChars (strBytes (toString user_id ++ ":" ++ d.toIso ++ ":" ++ template_id))).take 16)

/-- Embedding of `TaskService._seeded_rng`: a fresh generator seeded with
`int(sha256("{user_id}:{date.isoformat()}").hexdigest(), 16)`. -/
def seeded_rng (user_id : Int) (d : PyDate) : PyRandom :=
  mkRandom (natOfBytesBE (sha256Bytes (strBytes (toString user_id ++ ":" ++ d.toIso))))

/-- The eligible templates of `generate_daily_plan`: the catalog filtered by
the rules' active skills, falling back to the full default catalog when the
filter comes up empty. -/
def eligible_templates (st : MBState) (rules : LevelRules) : List TaskTemplate :=
  let filtered := (list_templates st).filter (fun t => rules.active_skills.contains t.skill)
  if filtered.isEmpty then DEFAULT_TEMPLATES else filtered

/-- The pure selection part of `TaskService.generate_daily_plan`: take the
eligible templates, draw the count, sample templates, and build the
assignment rows. -/
def plan_assignments (st : MBState) (user_id : Int) (d : PyDate) (rules : LevelRules) :
    List TaskAssignment :=
  let templates := eligible_templates st rules
  let p := (seeded_rng user_id d).randint rules.min_daily_tasks rules.max_daily_tasks
  let q := p.2.sample templates (min p.1 templates.length)
  q.1.map (fun t =>
    ⟨assignment_id_of user_id d t.template_id, user_id, t.template_id, t.title,
      t.skill, d, TaskStatus.assigned⟩)

/-- Embedding of `TaskService.generate_daily_plan`: build the rows and
persist them via `create_assignments`. -/
def generate_daily_plan (st : MBState) (user_id : Int) (d : PyDate) (rules : LevelRules) :
    Except DBError (DailyPlan × MBState) :=
  (create_assignments st (plan_assignments st user_id d rules)).map
    (fun st1 => (⟨d, plan_assignments st user_id d rules⟩, st1))

/-- Embedding of `TaskService.record_result`; the ambient `uuid.uuid4()` and
`datetime.utcnow()` are the explicit `eventId` and `now` parameters.  The
event is built and recorded unconditionally — there is no existence check
here. -/
def record_result (st : MBState) (user_id : Int) (aid : String) (status : TaskStatus)
    (note : Option String) (eventId : String) (now : Nat) :
    Except DBError (TaskEvent × MBState) :=
  (record_event st ⟨eventId, aid, user_id, status, now, note⟩).map
    (fun st1 => (⟨eventId, aid, user_id, status, now, note⟩, st1))

/-- Embedding of `TaskService.daily_summary`. -/
def daily_summary (st : MBState) (today : PyDate) (user_id : Int) (d : PyDate) :
    DaySummary :=
  summarize_day today (list_assignments_for_date st user_id d)

/-- Embedding of `TaskService.weekly_summary`. -/
def weekly_summary (st : MBState) (user_id : Int) (week_start : PyDate) : WeekSummary :=
  let week_end := week_start.addDays 6
  let assignments := list_assignments_between st user_id week_start week_end
  let done := (assignments.filter (fun a => a.status == TaskStatus.done)).length
  let failed := (assignments.filter (fun a => a.status == TaskStatus.failed)).length
  let total := assignments.length
  ⟨week_start, week_end, completion_rate done total,
    decide (total > 7 * DEFAULT_RULES.max_daily_tasks),
    decide (done = 0 ∧ total > 0),
    if failed ≥ 5 then failed else 0⟩

/-- Embedding of `TaskService.weekly_adjustment` (the notes are the code's
literal strings; the spec glosses them in English as "reduce load:
stagnation", "reduce load: overload", "increase load: stable completion"
and "no change" respectively). -/
def weekly_adjustment (summary : WeekSummary) : WeeklyAdjustment :=
  let note :=
    if summary.stagnation_flag then "Снижение нагрузки: застой"
    else if summary.overload_flag then "Снижение нагрузки: перегруз"
    else if summary.completion_rate > 0.8 then "Усиление нагрузки: стабильное выполнение"
    else "Нагрузка без изменений"
  ⟨summary.week_start, note⟩

/-- Embedding of `TaskService._level_decision`.  `critical_failures` is a
count, so the Python truthiness test `if critical_failures:` is `≠ 0`. -/
def level_decision (completion : ℚ) (closed_weeks : Nat) (critical_failures : Nat)
    (level : Int) : String :=
  if critical_failures ≠ 0 then "hold"
  else if completion ≥ 0.8 ∧ closed_weeks ≥ 4 then "promote:" ++ toString (level + 1)
  else if completion < 0.5 then "hold"
  else "hold"

/-- Embedding of `TaskService.monthly_summary`. -/
def monthly_summary (st : MBState) (user_id : Int) (month_start : PyDate) (level : Int) :
    MonthSummary :=
  let month_end := month_start.addDays 29
  let assignments := list_assignments_between st user_id month_start month_end
  let done := (assignments.filter (fun a => a.status == TaskStatus.done)).length
  let failed := (assignments.filter (fun a => a.status == TaskStatus.failed)).length
  let total := assignments.length
  let completion := completion_rate done total
  let closed_weeks := 4
  let critical_failures := if failed ≥ 15 then failed else 0
  ⟨month_start, month_end, completion, closed_weeks, critical_failures,
    level_decision completion closed_weeks critical_failures level⟩

/-! ## Transport handlers (bot.py)

The `/done` and `/fail` handlers perform the "not found" / ownership check
at the boundary: they fetch the assignment first and only call
`record_result` when it exists and belongs to the requesting user. -/

/-- Embedding of the `/done` handler body after argument parsing. -/
def done_command (st : MBState) (user_id : Int) (aid : String) (eventId : String)
    (now : Nat) : Except DBError (String × MBState) :=
  (fetch_assignment st aid).elim (.ok ("Задание не найдено.", st)) (fun a =>
    if a.user_id ≠ user_id then .ok ("Задание не найдено.", st)
    else
      (record_result st user_id aid TaskStatus.done none eventId now).map
        (fun p => ("Зафиксировано: выполнено.", p.2)))

/-- Embedding of the `/fail` handler body after argument parsing. -/
def fail_command (st : MBState) (user_id : Int) (aid : String) (eventId : String)
    (now : Nat) : Except DBError (String × MBState) :=
  (fetch_assignment st aid).elim (.ok ("Задание не найдено.", st)) (fun a =>
    if a.user_id ≠ user_id then .ok ("Задание не найдено.", st)
    else
      (record_result st user_id aid TaskStatus.failed none eventId now).map
        (fun p => ("Зафиксировано: провал.", p.2)))

/-! ## Operation sequences and the status invariant

The transitions a deployment can perform on the store through the service:
seeding/upserting templates, generating a daily plan and recording a result.
Failing transitions (constraint violations) roll back, leaving the state as
it was. -/

/-- The state an operation returning `Except DBError (α × MBState)` leaves
behind: its new state on success, the unchanged old state on a rolled-back
failure. -/
def stateAfter {α : Type} (st : MBState) : Except DBError (α × MBState) → MBState
  | .ok p => p.2
  | .error _ => st

/-- The state after `generate_daily_plan`, keeping the old state when the
insert aborts. -/
def apply_generate (st : MBState) (u : Int) (d : PyDate) (rules : LevelRules) : MBState :=
  stateAfter st (generate_daily_plan st u d rules)

/-- The state after `record_result`, keeping the old state when the insert
aborts. -/
def apply_record (st : MBState) (u : Int) (aid : String) (s : TaskStatus)
    (note : Option String) (eid : String) (now : Nat) : MBState :=
  stateAfter st (record_result st u aid s note eid now)

/-- The status of the most recently recorded event referencing an
assignment id, if any. -/
def lastEventStatus (events : List TaskEvent) (aid : String) : Option TaskStatus :=
  ((events.filter (fun e => e.assignment_id == aid)).getLast?).map TaskEvent.status

/-- Every stored assignment's status equals the status of the most recently
recorded event referencing it, or `assigned` if no event references it. -/
def statusInvariant (st : MBState) : Prop :=
  ∀ a ∈ st.assignments,
    a.status = (lastEventStatus st.events a.assignment_id).getD TaskStatus.assigned

/-- Every recorded event references a stored assignment. -/
def eventsBound (st : MBState) : Prop :=
  ∀ e ∈ st.events, ∃ a ∈ st.assignments, a.assignment_id = e.assignment_id

/-- States reachable from the empty database by service operations in which
every `record_result` call targets an assignment that exists at that moment
(as the transport layer guarantees via its `fetch_assignment` check). -/
inductive ReachableGuarded : MBState → Prop
  | init : ReachableGuarded initState
  | seed (st : MBState) (t : TaskTemplate) :
      ReachableGuarded st → ReachableGuarded (upsert_template st t)
  | gen (st : MBState) (u : Int) (d : PyDate) (rules : LevelRules) :
      ReachableGuarded st → ReachableGuarded (apply_generate st u d rules)
  | record (st : MBState) (u : Int) (aid : String) (s : TaskStatus)
      (note : Option String) (eid : String) (now : Nat) :
      ReachableGuarded st → (fetch_assignment st aid).isSome = true →
      ReachableGuarded (apply_record st u aid s note eid now)

/-! ## Concrete inputs used by witnesses and counterexamples -/

/-- The running example date of the spec: 2024-03-04. -/
def exDate : PyDate := ⟨2024, 3, 4⟩

/-- The database after `seed_templates()` on an empty store. -/
def seededState : MBState := DEFAULT_TEMPLATES.foldl upsert_template initState

/-- A catalog holding only the body template. -/
def bodyOnlyState : MBState :=
  upsert_template initState ⟨"body-01", Skill.body, "Физическая активность", 15, 30⟩

/-- Valid rules (positive minimum, min ≤ max) whose only active skill is
body. -/
def bodyRules : LevelRules := ⟨1, [Skill.body], 3, 2⟩

/-- The sixteen lowercase hex digits. -/
def hexDigits : List Char := "0123456789abcdef".data

/-- Events recorded (via the real `record_result`, with no existence check
anywhere) for each id `generate_daily_plan(42, 2024-03-04, ·)` can later
produce from the default catalog — the ids are the SHA-256 prefixes of
`"42:2024-03-04:<template_id>"`. -/
def preEventState : MBState :=
  (["1b6f633b28ddc1b7", "222d9c8fbd0fb7f1", "fd1ddae0ef01cc24",
    "726038d651293d62", "f7c0d1d851e8116c", "e7e1ffabb8a925ca"].enum).foldl
    (fun st p => apply_record st 42 p.2 TaskStatus.done none (toString p.1) 0)
    initState

/-- Generating the plan for (42, 2024-03-04) after those events: every
created assignment starts as `assigned` although a `done` event already
references its id. -/
def c6BadState : MBState := apply_generate preEventState 42 exDate DEFAULT_RULES

/-- Ten assignment rows of user 1, all dated 2024-03-04, none done. -/
def tenOpenState : MBState :=
  { initState with
    assignments :=
      (List.range 10).map
        (fun i =>
          ⟨"a" ++ toString i, 1, "t" ++ toString i, "z", Skill.body, exDate,
            TaskStatus.assigned⟩) }

/-- The claim's reading of the aggregation window, stated from the spec's
words for comparison with `weekly_summary`: the user's stored assignments
dated in the inclusive 7-day window starting at `week_start`. -/
def spec_week_window (st : MBState) (u : Int) (ws : PyDate) : List TaskAssignment :=
  st.assignments.filter
    (fun a => a.user_id == u && ws.le a.date_assigned && a.date_assigned.le (ws.addDays 6))

/-! ## Supporting lemmas -/

theorem filter_eventId_nil {events : List TaskEvent} {aid : String}
    (h : ∀ e ∈ events, e.assignment_id ≠ aid) :
    events.filter (fun e => e.assignment_id == aid) = [] := by
  induction events with
  | nil => rfl
  | cons e es ih =>
    rw [List.filter_cons]
    have he : (e.assignment_id == aid) = false := by
      simpa using h e (List.mem_cons_self e es)
    rw [he]
    exact ih (fun f hf => h f (List.mem_cons_of_mem e hf))

theorem bytesBE_length (k x : Nat) : (bytesBE k x).length = k := by
  induction k generalizing x with
  | zero => rfl
  | succ k ih => simp [bytesBE, ih]

theorem mem_bytesBE_lt {k x b : Nat} (h : b ∈ bytesBE k x) : b < 256 := by
  induction k generalizing x with
  | zero => simp [bytesBE] at h
  | succ k ih =>
    simp only [bytesBE, List.mem_append, List.mem_singleton] at h
    rcases h with h | h
    · exact ih h
    · omega

theorem sha256Bytes_length (msg : List Nat) : (sha256Bytes msg).length = 32 := by
  unfold sha256Bytes
  rcases shaFold shaH0 (shaPad msg) with ⟨a, b, c, d, e, f, g, hh⟩
  simp [bytesBE_length]

theorem mem_sha256Bytes_lt {msg : List Nat} {b : Nat} (h : b ∈ sha256Bytes msg) :
    b < 256 := by
  unfold sha256Bytes at h
  rcases shaFold shaH0 (shaPad msg) with ⟨x1, x2, x3, x4, x5, x6, x7, x8⟩
  simp only [List.mem_append] at h
  rcases h with ((((((h | h) | h) | h) | h) | h) | h) | h <;> exact mem_bytesBE_lt h

theorem foldr_byteHex_length (bs : List Nat) :
    (bs.foldr (fun b acc => byteHex b ++ acc) []).length = 2 * bs.length := by
  induction bs with
  | nil => rfl
  | cons b bs ih =>
    rw [List.foldr_cons, List.length_append, ih]
    simp [byteHex]
    omega

theorem mem_foldr_byteHex {bs : List Nat} {c : Char}
    (h : c ∈ bs.foldr (fun b acc => byteHex b ++ acc) []) :
    ∃ b ∈ bs, c ∈ byteHex b := by
  induction bs with
  | nil => simp at h
  | cons b bs ih =>
    simp only [List.foldr_cons, List.mem_append] at h
    rcases h with h | h
    · exact ⟨b, List.mem_cons_self b bs, h⟩
    · obtain ⟨b1, hb1, hc⟩ := ih h
      exact ⟨b1, List.mem_cons_of_mem b hb1, hc⟩

theorem hexChar_mem_hexDigits : ∀ n < 16, hexChar n ∈ hexDigits := by decide

theorem mem_byteHex_hexDigits {b : Nat} (hb : b < 256) :
    ∀ c ∈ byteHex b, c ∈ hexDigits := by
  intro c hc
  simp only [byteHex, List.mem_cons, List.not_mem_nil, or_false] at hc
  rcases hc with rfl | rfl
  · exact hexChar_mem_hexDigits (b / 16) (by omega)
  · exact hexChar_mem_hexDigits (b % 16) (by omega)

theorem sha256HexChars_length (msg : List Nat) : (sha256HexChars msg).length = 64 := by
  unfold sha256HexChars
  rw [foldr_byteHex_length, sha256Bytes_length]

theorem mem_sha256HexChars {msg : List Nat} {c : Char} (h : c ∈ sha256HexChars msg) :
    c ∈ hexDigits := by
  obtain ⟨b, hb, hc⟩ := mem_foldr_byteHex h
  exact mem_byteHex_hexDigits (mem_sha256Bytes_lt hb) c hc

theorem randint_bounds (r : PyRandom) {a b : Nat} (h : a ≤ b) :
    a ≤ (r.randint a b).1 ∧ (r.randint a b).1 ≤ b := by
  unfold PyRandom.randint
  refine ⟨Nat.le_add_right _ _, ?_⟩
  have : r.next32.1 % (b + 1 - a) < b + 1 - a := Nat.mod_lt _ (by omega)
  omega

theorem sampleAux_length {α : Type} (k : Nat) (r : PyRandom) (xs : List α) :
    (sampleAux k r xs).1.length = min k xs.length := by
  induction k generalizing r xs with
  | zero => simp [sampleAux]
  | succ k ih =>
    cases xs with
    | nil => simp [sampleAux]
    | cons x rest =>
      have hlt : r.next32.1 % (x :: rest).length < (x :: rest).length :=
        Nat.mod_lt _ (by simp)
      have h2 := List.length_eraseIdx_add_one hlt
      simp only [sampleAux, List.length_cons, ih]
      simp only [List.length_cons] at h2
      omega

theorem insertBy_perm {α : Type} (le : α → α → Bool) (a : α) (l : List α) :
    List.Perm (insertBy le a l) (a :: l) := by
  induction l with
  | nil => exact List.Perm.refl _
  | cons b rest ih =>
    unfold insertBy
    split
    · exact List.Perm.refl _
    · exact List.Perm.trans (List.Perm.cons b ih) (List.Perm.swap a b rest)

theorem sortBy_perm {α : Type} (le : α → α → Bool) (l : List α) :
    List.Perm (sortBy le l) l := by
  induction l with
  | nil => exact List.Perm.refl _
  | cons a rest ih =>
    exact List.Perm.trans (insertBy_perm le a (sortBy le rest)) (List.Perm.cons a ih)

theorem insertAssignments_ok {acc l rows : List TaskAssignment}
    (h : insertAssignments acc l = .ok rows) :
    rows = acc ++ l ∧
      ∀ b ∈ l, ∀ a ∈ acc, a.assignment_id ≠ b.assignment_id := by
  induction l generalizing acc with
  | nil =>
    simp only [insertAssignments] at h
    cases h
    simp
  | cons x l ih =>
    rw [insertAssignments] at h
    by_cases hc : acc.any (fun b => b.assignment_id == x.assignment_id)
    · simp [hc] at h
    · rw [if_neg hc] at h
      obtain ⟨h1, h2⟩ := ih h
      refine ⟨by rw [h1]; simp, ?_⟩
      intro b hb a ha
      rcases List.mem_cons.1 hb with rfl | hb
      · have hc' : acc.any (fun b0 => b0.assignment_id == b.assignment_id) = false := by
          simpa using hc
        have := List.any_eq_false.1 hc' a ha
        simpa using this
      · exact h2 b hb a (List.mem_append_left _ ha)

theorem upsert_template_assignments (st : MBState) (t : TaskTemplate) :
    (upsert_template st t).assignments = st.assignments := by
  unfold upsert_template; split <;> rfl

theorem upsert_template_events (st : MBState) (t : TaskTemplate) :
    (upsert_template st t).events = st.events := by
  unfold upsert_template; split <;> rfl

theorem plan_assignments_fields (st : MBState) (u : Int) (d : PyDate)
    (rules : LevelRules) :
    ∀ a ∈ plan_assignments st u d rules,
      a.status = TaskStatus.assigned ∧
      a.assignment_id = assignment_id_of u d a.template_id ∧
      a.user_id = u ∧ a.date_assigned = d := by
  intro a ha
  unfold plan_assignments at ha
  obtain ⟨t, _, rfl⟩ := List.mem_map.1 ha
  exact ⟨rfl, rfl, rfl, rfl⟩

theorem lastEventStatus_of_no_ref {events : List TaskEvent} {aid : String}
    (h : ∀ e ∈ events, e.assignment_id ≠ aid) :
    lastEventStatus events aid = none := by
  unfold lastEventStatus
  rw [filter_eventId_nil h]
  rfl

theorem lastEventStatus_append_match {events : List TaskEvent} {e : TaskEvent}
    {aid : String} (h : e.assignment_id = aid) :
    lastEventStatus (events ++ [e]) aid = some e.status := by
  unfold lastEventStatus
  rw [List.filter_append]
  have hf : List.filter (fun f => f.assignment_id == aid) [e] = [e] := by
    simp [List.filter_cons, h]
  rw [hf, List.getLast?_concat]
  rfl

theorem lastEventStatus_append_nomatch {events : List TaskEvent} {e : TaskEvent}
    {aid : String} (h : e.assignment_id ≠ aid) :
    lastEventStatus (events ++ [e]) aid = lastEventStatus events aid := by
  unfold lastEventStatus
  rw [List.filter_append]
  have hf : List.filter (fun f => f.assignment_id == aid) [e] = [] := by
    simp [List.filter_cons, h]
  rw [hf, List.append_nil]

theorem invariants_apply_generate (st : MBState) (u : Int) (d : PyDate)
    (rules : LevelRules) (h1 : statusInvariant st) (h2 : eventsBound st) :
    statusInvariant (apply_generate st u d rules) ∧
      eventsBound (apply_generate st u d rules) := by
  unfold apply_generate generate_daily_plan create_assignments
  cases hins : insertAssignments st.assignments (plan_assignments st u d rules) with
  | error e => simp only [hins, Except.map, stateAfter]; exact ⟨h1, h2⟩
  | ok rows =>
    simp only [hins, Except.map, stateAfter]
    obtain ⟨hrows, hfresh⟩ := insertAssignments_ok hins
    subst hrows
    constructor
    · intro a ha
      rcases List.mem_append.1 ha with ha | ha
      · exact h1 a ha
      · obtain ⟨hst, _, _, _⟩ := plan_assignments_fields st u d rules a ha
        rw [hst]
        have hnone : lastEventStatus st.events a.assignment_id = none := by
          apply lastEventStatus_of_no_ref
          intro e he hEq
          obtain ⟨a0, ha0, hide⟩ := h2 e he
          exact hfresh a ha a0 ha0 (by rw [hide, hEq])
        rw [hnone]
        rfl
    · intro e he
      obtain ⟨a0, ha0, hid⟩ := h2 e he
      exact ⟨a0, List.mem_append_left _ ha0, hid⟩

theorem invariants_apply_record (st : MBState) (u : Int) (aid : String) (s : TaskStatus)
    (note : Option String) (eid : String) (now : Nat)
    (hsome : (fetch_assignment st aid).isSome = true)
    (h1 : statusInvariant st) (h2 : eventsBound st) :
    statusInvariant (apply_record st u aid s note eid now) ∧
      eventsBound (apply_record st u aid s note eid now) := by
  unfold apply_record record_result record_event
  by_cases hdup : st.events.any (fun f => f.event_id == eid)
  · rw [if_pos hdup]
    simp only [Except.map, stateAfter]
    exact ⟨h1, h2⟩
  · rw [if_neg hdup]
    simp only [Except.map, stateAfter]
    constructor
    · intro a' ha'
      obtain ⟨a, ha, rfl⟩ := List.mem_map.1 ha'
      by_cases hm : a.assignment_id = aid
      · simp only [hm, beq_self_eq_true, if_pos]
        rw [lastEventStatus_append_match (show (⟨eid, aid, u, s, now, note⟩ : TaskEvent).assignment_id = aid from rfl)]
        rfl
      · have hmb : (a.assignment_id == aid) = false := by simpa using hm
        simp only [hmb, Bool.false_eq_true, if_neg, if_false]
        rw [lastEventStatus_append_nomatch (show (⟨eid, aid, u, s, now, note⟩ : TaskEvent).assignment_id ≠ a.assignment_id from fun hEq => hm hEq.symm)]
        exact h1 a ha
    · intro f hf
      rcases List.mem_append.1 hf with hf | hf
      · obtain ⟨a0, ha0, hid⟩ := h2 f hf
        by_cases hm : a0.assignment_id = aid
        · refine ⟨{a0 with status := s}, ?_, by simpa using hid⟩
          have : (fun a => if a.assignment_id == aid then { a with status := s } else a) a0
              = { a0 with status := s } := by simp [hm]
          exact this ▸ List.mem_map_of_mem _ ha0
        · have hmb : (a0.assignment_id == aid) = false := by simpa using hm
          refine ⟨a0, ?_, hid⟩
          have : (fun a => if a.assignment_id == aid then { a with status := s } else a) a0
              = a0 := by simp [hmb]
          exact this ▸ List.mem_map_of_mem _ ha0
      · have hfe : f = ⟨eid, aid, u, s, now, note⟩ := by simpa using hf
        subst hfe
        cases hfind : st.assignments.find? (fun a => a.assignment_id == aid) with
        | none =>
          rw [fetch_assignment, hfind] at hsome
          cases hsome
        | some a0 =>
          have ha0 := List.mem_of_find?_eq_some hfind
          have hp := List.find?_some hfind
          refine ⟨{a0 with status := s}, ?_, by simpa using hp⟩
          have : (fun a => if a.assignment_id == aid then { a with status := s } else a) a0
              = { a0 with status := s } := by simp [hp]
          exact this ▸ List.mem_map_of_mem _ ha0

theorem reachable_invariants {st : MBState} (h : ReachableGuarded st) :
    statusInvariant st ∧ eventsBound st := by
  induction h with
  | init =>
    constructor <;> intro x hx <;> simp [initState] at hx
  | seed st t _ ih =>
    constructor
    · intro a ha
      rw [upsert_template_assignments] at ha
      rw [upsert_template_events]
      exact ih.1 a ha
    · intro e he
      rw [upsert_template_events] at he
      obtain ⟨a, ha, hid⟩ := ih.2 e he
      exact ⟨a, by rw [upsert_template_assignments]; exact ha, hid⟩
  | gen st u d rules _ ih => exact invariants_apply_generate st u d rules ih.1 ih.2
  | record st u aid s note eid now _ hsome ih =>
    exact invariants_apply_record st u aid s note eid now hsome ih.1 ih.2

theorem record_event_updates_only_status (st1 st2 : MBState) (e : TaskEvent)
    (h : record_event st1 e = .ok st2) :
    st2.events = st1.events ++ [e] ∧
      ∀ a ∈ st1.assignments, ∃ a2 ∈ st2.assignments,
        a2.assignment_id = a.assignment_id ∧ a2.template_id = a.template_id ∧
        a2.user_id = a.user_id ∧ a2.title = a.title ∧ a2.skill = a.skill ∧
        a2.date_assigned = a.date_assigned ∧
        a2.status = (if a.assignment_id = e.assignment_id then e.status else a.status) := by
  rw [record_event] at h
  by_cases hdup : st1.events.any (fun f => f.event_id == e.event_id)
  · rw [if_pos hdup] at h
    cases h
  · rw [if_neg hdup] at h
    cases h
    refine ⟨rfl, ?_⟩
    intro a ha
    by_cases hm : a.assignment_id = e.assignment_id
    · refine ⟨{a with status := e.status}, ?_, rfl, rfl, rfl, rfl, rfl, rfl, by rw [if_pos hm]⟩
      have : (fun a0 => if a0.assignment_id == e.assignment_id then { a0 with status := e.status } else a0) a
          = { a with status := e.status } := by simp [hm]
      exact this ▸ List.mem_map_of_mem _ ha
    · refine ⟨a, ?_, rfl, rfl, rfl, rfl, rfl, rfl, by rw [if_neg hm]⟩
      have hmb : (a.assignment_id == e.assignment_id) = false := by simpa using hm
      have : (fun a0 => if a0.assignment_id == e.assignment_id then { a0 with status := e.status } else a0) a
          = a := by simp [hmb]
      exact this ▸ List.mem_map_of_mem _ ha

theorem plan_assignments_length (st : MBState) (u : Int) (d : PyDate)
    (rules : LevelRules) (h : rules.min_daily_tasks ≤ rules.max_daily_tasks) :
    min rules.min_daily_tasks (eligible_templates st rules).length
        ≤ (plan_assignments st u d rules).length ∧
      (plan_assignments st u d rules).length ≤ rules.max_daily_tasks ∧
      (plan_assignments st u d rules).length ≤ (eligible_templates st rules).length := by
  obtain ⟨hlo, hhi⟩ := randint_bounds (seeded_rng u d) h
  unfold plan_assignments PyRandom.sample
  rw [List.length_map, sampleAux_length]
  omega

theorem roundHalfEven_bounds {q : ℚ} (h0 : 0 ≤ q) (h1 : q ≤ 10000) :
    0 ≤ roundHalfEven q ∧ roundHalfEven q ≤ 10000 := by
  have hf0 : 0 ≤ ⌊q⌋ := Int.floor_nonneg.2 h0
  have hle : ⌊q⌋ ≤ 10000 := by
    have ha : ⌊q⌋ ≤ ⌊(10000 : ℚ)⌋ := Int.floor_le_floor h1
    have hb : ⌊(10000 : ℚ)⌋ = 10000 := by norm_num
    omega
  have hfq : (⌊q⌋ : ℚ) ≤ q := Int.floor_le q
  simp only [roundHalfEven]
  split_ifs with ha hb hc
  · exact ⟨hf0, hle⟩
  · have h12 : (1 : ℚ) / 2 ≤ q - ⌊q⌋ := not_lt.1 ha
    have hq : (⌊q⌋ : ℚ) < 10000 := by linarith
    have hz : ⌊q⌋ < 10000 := by exact_mod_cast hq
    exact ⟨by omega, by omega⟩
  · exact ⟨hf0, hle⟩
  · have h12 : (1 : ℚ) / 2 ≤ q - ⌊q⌋ := not_lt.1 ha
    have hq : (⌊q⌋ : ℚ) < 10000 := by linarith
    have hz : ⌊q⌋ < 10000 := by exact_mod_cast hq
    exact ⟨by omega, by omega⟩

theorem completion_rate_bounds {done total : Nat} (h : done ≤ total) :
    0 ≤ completion_rate done total ∧ completion_rate done total ≤ 1 := by
  unfold completion_rate
  split_ifs with ht
  · norm_num
  · have htpos : (0 : ℚ) < total := by
      exact_mod_cast Nat.pos_of_ne_zero ht
    have hq0 : 0 ≤ (done : ℚ) / total * 10000 := by positivity
    have hq1 : (done : ℚ) / total * 10000 ≤ 10000 := by
      have hd1 : (done : ℚ) / total ≤ 1 := (div_le_one htpos).2 (by exact_mod_cast h)
      nlinarith
    obtain ⟨hr0, hr1⟩ := roundHalfEven_bounds hq0 hq1
    constructor
    · exact div_nonneg (by exact_mod_cast hr0) (by norm_num)
    · rw [div_le_one (by norm_num)]
      exact_mod_cast hr1

theorem weekly_summary_eq (st : MBState) (u : Int) (ws : PyDate) :
    weekly_summary st u ws =
      ⟨ws, ws.addDays 6,
        completion_rate
          ((spec_week_window st u ws).filter (fun a => a.status == TaskStatus.done)).length
          (spec_week_window st u ws).length,
        decide ((spec_week_window st u ws).length > 21),
        decide (((spec_week_window st u ws).filter (fun a => a.status == TaskStatus.done)).length = 0
          ∧ (spec_week_window st u ws).length > 0),
        if ((spec_week_window st u ws).filter (fun a => a.status == TaskStatus.failed)).length ≥ 5
        then ((spec_week_window st u ws).filter (fun a => a.status == TaskStatus.failed)).length
        else 0⟩ := by
  have hperm : List.Perm (list_assignments_between st u ws (ws.addDays 6))
      (spec_week_window st u ws) := sortBy_perm _ _
  have hlen := hperm.length_eq
  have hdone := (hperm.filter (fun a => a.status == TaskStatus.done)).length_eq
  have hfail := (hperm.filter (fun a => a.status == TaskStatus.failed)).length_eq
  simp only [weekly_summary]
  rw [hlen, hdone, hfail]
  rfl

/-! ## Claim theorems -/

/-- C1: `generate_daily_plan(user_id, date, rules)` is deterministic: two
invocations against states with the same template catalog and no prior
assignment rows return the same plan (hence assignment lists with identical
ids, skills and titles), and the selection is seeded from the cryptographic
hash of `"{user_id}:{date}"` (a fresh generator per call), independent of
any ambient random state. -/
theorem generate_daily_plan_deterministic (u : Int) (d : PyDate) (rules : LevelRules)
    (s1 s2 : MBState) (ht : s1.templates = s2.templates)
    (h1 : s1.assignments = []) (h2 : s2.assignments = []) :
    (generate_daily_plan s1 u d rules).map (fun p => p.1)
      = (generate_daily_plan s2 u d rules).map (fun p => p.1) ∧
    seeded_rng u d =
      mkRandom (natOfBytesBE (sha256Bytes (strBytes (toString u ++ ":" ++ d.toIso)))) := by
  have hplan : plan_assignments s1 u d rules = plan_assignments s2 u d rules := by
    unfold plan_assignments eligible_templates list_templates
    rw [ht]
  refine ⟨?_, rfl⟩
  simp only [generate_daily_plan, create_assignments, hplan, h1, h2]
  cases insertAssignments [] (plan_assignments s2 u d rules) <;> rfl

/-- Witness for C1: the determinism theorem applied at user 42, date
2024-03-04, the default rules and the empty store. -/
theorem generate_daily_plan_deterministic_witness :
    initState.templates = initState.templates ∧ initState.assignments = [] ∧
    (generate_daily_plan initState 42 exDate DEFAULT_RULES).map (fun p => p.1)
      = (generate_daily_plan initState 42 exDate DEFAULT_RULES).map (fun p => p.1) :=
  ⟨rfl, rfl,
    (generate_daily_plan_deterministic 42 exDate DEFAULT_RULES initState initState
      rfl rfl rfl).1⟩

/-- C2: every assignment produced by the picker has
`assignment_id = _assignment_id(user_id, date, template_id)`, which is the
first 16 characters of the lowercase hex SHA-256 digest of
`"{user_id}:{date}:{template_id}"` with the date in ISO format; the id is a
pure function of that triple, always 16 lowercase hex characters long. -/
theorem assignment_id_fingerprint (u : Int) (d : PyDate) (rules : LevelRules)
    (st : MBState) :
    (∀ a ∈ plan_assignments st u d rules,
      a.assignment_id = assignment_id_of u d a.template_id) ∧
    (∀ tid, assignment_id_of u d tid =
      String.mk
        ((sha256HexChars (strBytes (toString u ++ ":" ++ d.toIso ++ ":" ++ tid))).take 16)) ∧
    (∀ tid, (assignment_id_of u d tid).length = 16) ∧
    (∀ tid, ∀ c ∈ (assignment_id_of u d tid).data, c ∈ hexDigits) := by
  refine ⟨fun a ha => (plan_assignments_fields st u d rules a ha).2.1,
    fun tid => rfl, ?_, ?_⟩
  · intro tid
    show ((sha256HexChars _).take 16).length = 16
    rw [List.length_take, sha256HexChars_length]
    rfl
  · intro tid c hc
    exact mem_sha256HexChars (List.mem_of_mem_take hc)

/-- C3 counterexample: calling `record_result` itself with an assignment id
that identifies no stored assignment does NOT fail and DOES record an event:
on the empty store it returns the event and a state whose event log has
grown by one (sqlite never enforces the schema's foreign keys because the
code does not enable them). -/
theorem record_result_unknown_records_event :
    fetch_assignment initState "deadbeef" = none ∧
    record_result initState 7 "deadbeef" TaskStatus.done none "evt-1" 0 =
      .ok (⟨"evt-1", "deadbeef", 7, TaskStatus.done, 0, none⟩,
        ⟨[], [], [⟨"evt-1", "deadbeef", 7, TaskStatus.done, 0, none⟩]⟩) :=
  ⟨rfl, rfl⟩

/-- C3 (amended): the "not found" failure for an unknown assignment id is
produced by the transport layer, not by `record_result`: the `/done` and
`/fail` handlers fetch the assignment first and, when it is absent, reply
"Задание не найдено." and leave the state unchanged, recording no event;
`record_result` itself records an event unconditionally. -/
theorem transport_unknown_assignment_not_found (st : MBState) (u : Int)
    (aid eid : String) (now : Nat) (h : fetch_assignment st aid = none) :
    done_command st u aid eid now = .ok ("Задание не найдено.", st) ∧
    fail_command st u aid eid now = .ok ("Задание не найдено.", st) := by
  unfold done_command fail_command
  rw [h]
  exact ⟨rfl, rfl⟩

/-- Witness for C3: the guard theorem applied on the empty store at a
concrete unknown id. -/
theorem transport_unknown_assignment_not_found_witness :
    fetch_assignment initState "deadbeef" = none ∧
    done_command initState 7 "deadbeef" "evt-1" 0 =
      .ok ("Задание не найдено.", initState) :=
  ⟨rfl,
    (transport_unknown_assignment_not_found initState 7 "deadbeef" "evt-1" 0 rfl).1⟩

set_option maxRecDepth 1000000 in
/-- C4 (code bug): `create_assignments` issues a plain `INSERT` with no
`ON CONFLICT` clause, so re-inserting an assignment whose id is already
present is a fatal integrity error, not a no-op: on the seeded catalog the
first `generate_daily_plan(42, 2024-03-04, DEFAULT_RULES)` succeeds and the
second identical call fails with an integrity error (the sibling writers
`ensure_user` and `upsert_template` do use `INSERT OR IGNORE` /
`ON CONFLICT`). -/
theorem reinsert_same_day_integrity_error :
    (generate_daily_plan seededState 42 exDate DEFAULT_RULES).isOk = true ∧
    (generate_daily_plan seededState 42 exDate DEFAULT_RULES).bind
        (fun p => generate_daily_plan p.2 42 exDate DEFAULT_RULES)
      = .error DBError.integrityError := by
  constructor
  · rfl
  · rfl

set_option maxRecDepth 1000000 in
/-- C5 counterexample: with the valid rules `{min=2, max=3, active={body}}`
and a catalog holding one body template, the picker returns
`min(count, |eligible|) = 1` assignment, below `min_daily_tasks = 2` — the
claimed lower bound fails when fewer templates are eligible than the
minimum. -/
theorem count_lower_bound_fails_small_catalog :
    0 < bodyRules.min_daily_tasks ∧
    bodyRules.min_daily_tasks ≤ bodyRules.max_daily_tasks ∧
    (generate_daily_plan bodyOnlyState 42 exDate bodyRules).map
        (fun p => p.1.assignments.length) = .ok 1 ∧
    bodyRules.min_daily_tasks = 2 := by
  refine ⟨by decide, by decide, ?_, rfl⟩
  rfl

/-- C5 (amended): for valid rules the assignment count of
`generate_daily_plan` satisfies
`min(min_daily_tasks, |eligible|) ≤ |assignments| ≤ max_daily_tasks` and
`|assignments| ≤ |eligible templates|` (the unconditional lower bound
`min_daily_tasks ≤ |assignments|` holds only when at least
`min_daily_tasks` templates are eligible). -/
theorem generate_count_bounds (st : MBState) (u : Int) (d : PyDate)
    (rules : LevelRules) (_hpos : 0 < rules.min_daily_tasks)
    (h : rules.min_daily_tasks ≤ rules.max_daily_tasks) :
    min rules.min_daily_tasks (eligible_templates st rules).length
        ≤ (plan_assignments st u d rules).length ∧
    (plan_assignments st u d rules).length ≤ rules.max_daily_tasks ∧
    (plan_assignments st u d rules).length ≤ (eligible_templates st rules).length ∧
    ∀ p st2, generate_daily_plan st u d rules = .ok (p, st2) →
      p.assignments = plan_assignments st u d rules := by
  obtain ⟨hA, hB, hC⟩ := plan_assignments_length st u d rules h
  refine ⟨hA, hB, hC, ?_⟩
  intro p st2 hgen
  rw [generate_daily_plan, create_assignments] at hgen
  cases hins : insertAssignments st.assignments (plan_assignments st u d rules) with
  | error e => rw [hins] at hgen; simp [Except.map] at hgen
  | ok rows =>
    rw [hins] at hgen
    simp only [Except.map] at hgen
    cases hgen
    rfl

/-- Witness for C5: the amended bounds applied at user 42, date 2024-03-04,
the single-template catalog and the `{min=2, max=3}` body rules. -/
theorem generate_count_bounds_witness :
    0 < bodyRules.min_daily_tasks ∧
    bodyRules.min_daily_tasks ≤ bodyRules.max_daily_tasks ∧
    (plan_assignments bodyOnlyState 42 exDate bodyRules).length
      ≤ bodyRules.max_daily_tasks :=
  ⟨by decide, by decide,
    (generate_count_bounds bodyOnlyState 42 exDate bodyRules (by decide) (by decide)).2.1⟩

set_option maxRecDepth 1000000 in
/-- C6 counterexample: the status invariant does not hold over ALL operation
sequences.  Recording results (which the code accepts for ids that do not
exist yet — see C3) for the six future assignment ids of user 42 on
2024-03-04 and then generating that day's plan yields a state in which the
new assignments carry status `assigned` although the most recently recorded
event for each of their ids is `done`. -/
theorem status_invariant_fails_unguarded : ¬ statusInvariant c6BadState := by
  intro h
  have hmem : (⟨"e7e1ffabb8a925ca", 42, "language-01", "Практика языка",
      Skill.language, exDate, TaskStatus.assigned⟩ : TaskAssignment)
      ∈ c6BadState.assignments := by decide
  have := h _ hmem
  simp only [] at this
  exact absurd this (by decide)

/-- C6 (amended): recording an event for a stored assignment updates exactly
that assignment's status to the event's status and changes no other field
(id, template, user, title, skill, date all unchanged); and along every
operation sequence in which each `record_result` targets an assignment that
exists at that moment (the transport layer's guarantee), every stored
assignment's status equals the status of the most recently recorded event
referencing it, or `assigned` if no event references it. -/
theorem status_tracks_last_event (st : MBState) (h : ReachableGuarded st) :
    statusInvariant st ∧
    ∀ st1 st2 e, record_event st1 e = .ok st2 →
      st2.events = st1.events ++ [e] ∧
      ∀ a ∈ st1.assignments, ∃ a2 ∈ st2.assignments,
        a2.assignment_id = a.assignment_id ∧ a2.template_id = a.template_id ∧
        a2.user_id = a.user_id ∧ a2.title = a.title ∧ a2.skill = a.skill ∧
        a2.date_assigned = a.date_assigned ∧
        a2.status = (if a.assignment_id = e.assignment_id then e.status else a.status) :=
  ⟨(reachable_invariants h).1,
    fun st1 st2 e he => record_event_updates_only_status st1 st2 e he⟩

/-- Witness for C6: the invariant theorem applied at the initial (empty,
trivially guarded-reachable) store. -/
theorem status_tracks_last_event_witness : statusInvariant initState :=
  (status_tracks_last_event initState ReachableGuarded.init).1

/-- C7: `_level_decision` holds whenever `critical_failures > 0` regardless
of the other arguments; with no critical failures it promotes to `level+1`
exactly when `completion_rate ≥ 0.8` and `closed_weeks ≥ 4` and holds in
every remaining case (the sub-0.5 branch included); `monthly_summary`
always feeds it `closed_weeks = 4` and `critical_failures = failed` if
`failed ≥ 15` else `0`; and the spec's example month (rate 0.85, 4 closed
weeks, no critical failures, level 1) gets "promote:2". -/
theorem level_decision_spec (completion : ℚ) (closed_weeks critical : Nat)
    (level : Int) (st : MBState) (u : Int) (ms : PyDate) :
    (0 < critical → level_decision completion closed_weeks critical level = "hold") ∧
    (critical = 0 →
      level_decision completion closed_weeks critical level =
        (if completion ≥ 0.8 ∧ closed_weeks ≥ 4
         then "promote:" ++ toString (level + 1) else "hold")) ∧
    (monthly_summary st u ms level).closed_weeks = 4 ∧
    (monthly_summary st u ms level).critical_failures =
      (if ((list_assignments_between st u ms (ms.addDays 29)).filter
            (fun a => a.status == TaskStatus.failed)).length ≥ 15
       then ((list_assignments_between st u ms (ms.addDays 29)).filter
            (fun a => a.status == TaskStatus.failed)).length
       else 0) ∧
    (monthly_summary st u ms level).level_change =
      level_decision (monthly_summary st u ms level).completion_rate 4
        (monthly_summary st u ms level).critical_failures level ∧
    level_decision 0.85 4 0 1 = "promote:2" := by
  refine ⟨?_, ?_, rfl, rfl, rfl, by norm_num [level_decision]; rfl⟩
  · intro hpos
    have hne : critical ≠ 0 := Nat.pos_iff_ne_zero.1 hpos
    simp [level_decision, hne]
  · intro hz
    subst hz
    simp only [level_decision, ne_eq, not_true_eq_false, if_neg, reduceIte]
    split_ifs <;> rfl

/-- C8: `weekly_adjustment` produces exactly one note by fixed precedence —
stagnation, then overload, then completion above 0.8, then no change (the
code's literal notes, which the spec glosses as "reduce load: stagnation",
"reduce load: overload", "increase load: stable completion", "no change");
and a week of user 1 with 10 assignments and none done (total=10, done=0,
so no overload since 10 is not above 21) yields the stagnation note. -/
theorem weekly_adjustment_spec (s : WeekSummary) :
    (weekly_adjustment s).week_start = s.week_start ∧
    (weekly_adjustment s).adjustment_note =
      (if s.stagnation_flag then "Снижение нагрузки: застой"
       else if s.overload_flag then "Снижение нагрузки: перегруз"
       else if s.completion_rate > 0.8 then "Усиление нагрузки: стабильное выполнение"
       else "Нагрузка без изменений") ∧
    (weekly_summary tenOpenState 1 exDate).stagnation_flag = true ∧
    (weekly_summary tenOpenState 1 exDate).overload_flag = false ∧
    (weekly_adjustment (weekly_summary tenOpenState 1 exDate)).adjustment_note
      = "Снижение нагрузки: застой" := by
  refine ⟨rfl, rfl, ?_, ?_, ?_⟩ <;> rfl

/-- C9: `weekly_summary(user_id, week_start)` aggregates exactly the user's
assignments dated in the inclusive 7-day window
`[week_start, week_start + 6 days]`, and returns
`completion_rate = round(done/total, 4)` (0 when the window is empty),
`overload_flag` iff `total > 21` (7 × the default rules' `max_daily_tasks`),
`stagnation_flag` iff `done = 0` and `total > 0`, and
`critical_failures = failed` if `failed ≥ 5` else `0`; the resulting
completion rate always lies in `[0, 1]`. -/
theorem weekly_summary_spec (st : MBState) (u : Int) (ws : PyDate) :
    weekly_summary st u ws =
      ⟨ws, ws.addDays 6,
        completion_rate
          ((spec_week_window st u ws).filter (fun a => a.status == TaskStatus.done)).length
          (spec_week_window st u ws).length,
        decide ((spec_week_window st u ws).length > 21),
        decide (((spec_week_window st u ws).filter
            (fun a => a.status == TaskStatus.done)).length = 0
          ∧ (spec_week_window st u ws).length > 0),
        if ((spec_week_window st u ws).filter
            (fun a => a.status == TaskStatus.failed)).length ≥ 5
        then ((spec_week_window st u ws).filter
            (fun a => a.status == TaskStatus.failed)).length
        else 0⟩ ∧
    (∀ a, a ∈ list_assignments_between st u ws (ws.addDays 6) ↔
      a ∈ spec_week_window st u ws) ∧
    (∀ a, a ∈ spec_week_window st u ws ↔
      (a ∈ st.assignments ∧ a.user_id = u ∧
        ws.toOrdinal ≤ a.date_assigned.toOrdinal ∧
        a.date_assigned.toOrdinal ≤ (ws.addDays 6).toOrdinal)) ∧
    0 ≤ (weekly_summary st u ws).completion_rate ∧
    (weekly_summary st u ws).completion_rate ≤ 1 := by
  refine ⟨weekly_summary_eq st u ws, ?_, ?_, ?_⟩
  · intro a
    exact (sortBy_perm _ (spec_week_window st u ws)).mem_iff
  · intro a
    simp [spec_week_window, List.mem_filter, PyDate.le, and_assoc]
  · have hle : ((spec_week_window st u ws).filter
        (fun a => a.status == TaskStatus.done)).length
        ≤ (spec_week_window st u ws).length := List.length_filter_le _ _
    obtain ⟨hb0, hb1⟩ := completion_rate_bounds hle
    rw [weekly_summary_eq st u ws]
    exact ⟨hb0, hb1⟩

/-- C10: when the user has no assignments dated the queried date,
`daily_summary` returns counts 0 but takes `date_value` from the ambient
current date (`date.today()`, the explicit `today` parameter of the
embedding) rather than the queried date — so the empty-day result depends
on the wall clock and is not a pure function of the arguments; on a
non-empty day `date_value` comes from the first returned assignment. -/
theorem daily_summary_empty_uses_today (st : MBState) (u : Int)
    (d today t1 t2 : PyDate) (hne : t1 ≠ t2) :
    (list_assignments_for_date st u d = [] →
      daily_summary st today u d = ⟨today, 0, 0, 0⟩ ∧
      daily_summary st t1 u d ≠ daily_summary st t2 u d) ∧
    (∀ a rest, list_assignments_for_date st u d = a :: rest →
      (daily_summary st today u d).date_value = a.date_assigned) := by
  constructor
  · intro hempty
    constructor
    · unfold daily_summary summarize_day
      rw [hempty]
      rfl
    · unfold daily_summary summarize_day
      rw [hempty]
      intro hEq
      exact hne (congrArg DaySummary.date_value hEq)
  · intro a rest hcons
    unfold daily_summary summarize_day
    rw [hcons]
/-- Witness for C10: the theorem applied on the empty store — the summary for
2024-03-06 carries the ambient date 2024-03-04. -/
theorem daily_summary_empty_uses_today_witness :
    (⟨2024, 3, 4⟩ : PyDate) ≠ ⟨2024, 3, 5⟩ ∧
    daily_summary initState ⟨2024, 3, 4⟩ 1 ⟨2024, 3, 6⟩ = ⟨⟨2024, 3, 4⟩, 0, 0, 0⟩ :=
  ⟨by decide,
    ((daily_summary_empty_uses_today initState 1 ⟨2024, 3, 6⟩ ⟨2024, 3, 4⟩
        ⟨2024, 3, 4⟩ ⟨2024, 3, 5⟩ (by decide)).1 rfl).1⟩
